import Mathlib

/-!
Verification of the slide-improvement quiz backend.

The development shallowly embeds the two logic-bearing modules of the
repository: `backend/app/data_loader.py` (CSV loading and image search)
and the `grade` endpoint of `backend/app/main.py`.  Filesystem access is
modelled by an explicit environment record `FS`; Python exceptions are
modelled with `Except`; Python `dict`s are modelled as insertion-ordered
association lists with in-place overwrite on duplicate keys.
-/

set_option maxRecDepth 4000

namespace SlideQuiz

/-! ## Python string primitives, embedded over `List Char` -/

/-- Whitespace characters stripped by Python's `str.strip()` (ASCII range). -/
def pyIsSpace (c : Char) : Bool :=
  c = ' ' || c = '\t' || c = '\n' || c = '\x0d' || c = '\x0b' || c = '\x0c'

/-- Drop leading whitespace, as the left half of `str.strip()`. -/
def dropLeadWS (l : List Char) : List Char := l.dropWhile pyIsSpace

/-- Drop trailing whitespace, as the right half of `str.strip()`. -/
def dropEndWS (l : List Char) : List Char := (l.reverse.dropWhile pyIsSpace).reverse

/-- Embedding of Python `str.strip()` on character lists. -/
def stripChars (l : List Char) : List Char := dropEndWS (dropLeadWS l)

/-- Embedding of Python `str.strip()`. -/
def pyStrip (s : String) : String := String.mk (stripChars s.toList)

/-- Embedding of Python `str.lower()` (character-wise; ASCII-faithful). -/
def pyLower (s : String) : String := String.mk (s.toList.map Char.toLower)

/-- `pre.isPrefixOf s` as Python's `str.startswith`. -/
def startsWithList : List Char → List Char → Bool
  | [], _ => true
  | _ :: _, [] => false
  | a :: as, b :: bs => a = b && startsWithList as bs

/-- Python `str.startswith`. -/
def pyStartsWith (pre s : String) : Bool := startsWithList pre.toList s.toList

/-- Python `str.endswith`. -/
def pyEndsWith (suf s : String) : Bool :=
  startsWithList suf.toList.reverse s.toList.reverse

/-- First character of a string, if any. -/
def strHead? (s : String) : Option Char := s.toList.head?

/-- Last character of a string, if any. -/
def strLast? (s : String) : Option Char := s.toList.getLast?

/-- Replace every occurrence of one character by another
(Python `str.replace` with a one-character pattern). -/
def replaceChar (a b : Char) (s : String) : String :=
  String.mk (s.toList.map (fun c => if c = a then b else c))

/-- Remove every occurrence of a character
(Python `str.replace(pat, "")` with a one-character pattern). -/
def removeChar (a : Char) (s : String) : String :=
  String.mk (s.toList.filter (fun c => c ≠ a))

/-! ## Python `dict` as an insertion-ordered association list -/

/-- `m[k] = v` on a Python `dict`: overwrite in place when the key exists,
append otherwise (insertion order of first occurrence is preserved). -/
def dictInsert {α : Type} (m : List (String × α)) (k : String) (v : α) :
    List (String × α) :=
  if m.any (fun p => p.1 = k) then
    m.map (fun p => if p.1 = k then (k, v) else p)
  else m ++ [(k, v)]

/-- `k in m` on a Python `dict`. -/
def dictContains {α : Type} (m : List (String × α)) (k : String) : Bool :=
  m.any (fun p => p.1 = k)

/-- `m.get(k)` on a Python `dict` (keys are unique by construction,
so the first match is the binding). -/
def dictGet {α : Type} (m : List (String × α)) (k : String) : Option α :=
  (m.find? (fun p => p.1 = k)).map Prod.snd

/-- The keys of a Python `dict`, in insertion order. -/
def dictKeys {α : Type} (m : List (String × α)) : List String := m.map Prod.fst

/-- `{h: i for i, h in enumerate(headers)}`: a later duplicate header
overwrites the index stored for the key while keeping its position. -/
def pyDictOfEnum (headers : List String) : List (String × Nat) :=
  headers.enum.foldl (fun m p => dictInsert m p.2 p.1) []

/-! ## Data model (`data_loader.py`) -/

/-- UI 表示用の改善項目（順序固定）; the canonical ordered label list. -/
def UI_IMPROVEMENTS : List String := [
  "ピクトグラムを挿入する",
  "小見出し(基本図解も)を追加する",
  "文字の強調",
  "領域の強調",
  "スライドタイトル（T1）、スライドメッセージ（T2)を追加する",
  "応用図解を使う（グリッド構造にする等）",
  "文章を箇条書きにする",
  "評価を加える",
  "左から右の流れ、上から下の流れ",
  "MECEかどうか"]

/-- UI ラベル -> CSV カラム名 (the `LABEL_TO_COL` dict). -/
def LABEL_TO_COL : List (String × String) := [
  ("ピクトグラムを挿入する", "ch1"),
  ("小見出し(基本図解も)を追加する", "ch2"),
  ("文字の強調", "ch3"),
  ("領域の強調", "ch4"),
  ("スライドタイトル（T1）、スライドメッセージ（T2)を追加する", "ch5"),
  ("応用図解を使う（グリッド構造にする等）", "ch6"),
  ("文章を箇条書きにする", "ch7"),
  ("評価を加える", "ch8"),
  ("左から右の流れ、上から下の流れ", "ch9"),
  ("MECEかどうか", "ch10")]

/-- The `QuizDef` dataclass.  `correct` is Python's `Set[str]`, represented
by the sub-list of canonical labels that belong to it (membership is the
only operation ever applied to it). -/
structure QuizDef where
  id : String
  improvements : List String
  correct : List String
  image_relpath : Option String
deriving Repr, DecidableEq

/-- The byte-order-mark character stripped from headers. -/
def bomChar : Char := '\uFEFF'

/-- Embedding of `_truthy` from `data_loader.py`. -/
def _truthy (value : String) : Bool :=
  (["1", "true", "yes", "y"] : List String).contains (pyLower (pyStrip value))

/-- Embedding of `_normalize_headers` from `data_loader.py`. -/
def _normalize_headers (headers : List String) : List String :=
  headers.map (fun h => pyStrip (removeChar bomChar h))

/-! ## Grader (`main.py`, endpoint `grade`) -/

/-- One row of a grading result (`RowResult` in `schemas.py`). -/
structure RowResult where
  item : String
  answered : Bool
  correct : Bool
  is_wrong : Bool
deriving Repr, DecidableEq

/-- A grading result (`GradeResult` in `schemas.py`). -/
structure GradeResult where
  score : Nat
  total : Nat
  rows : List RowResult
deriving Repr, DecidableEq

/-- Embedding of the body of the `grade` endpoint in `main.py`, after the
quiz lookup: the `selected` payload list is used as a set (membership
only), rows are appended in improvement order, and the score counts the
rows that are not wrong. -/
def grade (q : QuizDef) (selected : List String) : GradeResult :=
  let rows := q.improvements.foldl (fun acc item =>
    let answered := selected.contains item
    let correct := q.correct.contains item
    acc ++ [⟨item, answered, correct, answered != correct⟩]) []
  { score := rows.countP (fun r => !r.is_wrong)
    total := rows.length
    rows := rows }

/-! ## Filesystem environment and POSIX path arithmetic -/

/-- The `os` errors distinguished by the loader: `os.listdir` raises
`FileNotFoundError` on a missing path, `NotADirectoryError` on an
existing non-directory, `PermissionError` on an unreadable directory. -/
inductive OSErr where
  | fileNotFound
  | notADirectory
  | permissionDenied
deriving Repr, DecidableEq

/-- Exceptions that can escape `load_quizzes`: an `IndexError` from row
subscripting, or an uncaught `os` error. -/
inductive PyError where
  | indexError
  | osErr (e : OSErr)
deriving Repr, DecidableEq

/-- The ambient filesystem as the Python code observes it:
`os.path.isfile`, `os.path.isdir`, `os.listdir` (which may raise), the
parsed rows that `csv.reader` yields for a file, and the current working
directory (as normalized absolute components, used by `os.path.abspath`
inside `os.path.relpath`). -/
structure FS where
  cwd : List String
  isFile : String → Bool
  isDir : String → Bool
  listDir : String → Except OSErr (List String)
  csvRows : String → List (List String)

/-- Split a character list at a separator character (Python `str.split(sep)`). -/
def splitOnChar (c : Char) (l : List Char) : List (List Char) :=
  l.foldr (fun x r =>
    if x = c then [] :: r
    else match r with
      | [] => [[x]]
      | h :: t => (x :: h) :: t) [[]]

/-- Components of `os.path.abspath(p)`: join with the working directory
when `p` is relative, then normalize away empty, `.` and `..` segments
exactly as `posixpath.normpath` does for an absolute path. -/
def absComponents (cwd : List String) (p : String) : List String :=
  let parts := (splitOnChar '/' p.toList).map String.mk
  let init := if strHead? p = some '/' then [] else cwd
  parts.foldl (fun acc c =>
    if c = "" || c = "." then acc
    else if c = ".." then acc.dropLast
    else acc ++ [c]) init

/-- Length of the longest common prefix of two component lists
(`os.path.commonprefix` on lists). -/
def commonLen : List String → List String → Nat
  | a :: as, b :: bs => if a = b then commonLen as bs + 1 else 0
  | _, _ => 0

/-- Embedding of `posixpath.relpath(path, start)`. -/
def pyRelpath (cwd : List String) (path start : String) : String :=
  let pl := absComponents cwd path
  let sl := absComponents cwd start
  let i := commonLen sl pl
  let rel := List.replicate (sl.length - i) ".." ++ pl.drop i
  if rel = [] then "." else String.intercalate "/" rel

/-- Embedding of `posixpath.join(a, b)` for two arguments. -/
def osJoin (a b : String) : String :=
  if strHead? b = some '/' then b
  else if a = "" then b
  else if strLast? a = some '/' then a ++ b
  else a ++ "/" ++ b

/-! ## Image search (`_find_image_relpath` in `data_loader.py`) -/

/-- The `for p in candidates` loop of `_find_image_relpath`: return the
first candidate that is a regular file and whose path relative to
`static_dir` does not start with `".."`;  the relative path is returned
with backslashes replaced by forward slashes. -/
def findLoop (fs : FS) (static_dir : String) : List String → Option String
  | [] => none
  | p :: rest =>
    if fs.isFile p then
      let rel := pyRelpath fs.cwd p static_dir
      if pyStartsWith ".." rel then findLoop fs static_dir rest
      else some (replaceChar '\\' '/' rel)
    else findLoop fs static_dir rest

/-- The candidates assembled before subdirectory enumeration: the
override path (only when the override is a non-empty string, Python's
`if images_dir_env:`) followed by `static_dir/<quiz_id>.png`. -/
def baseCandidates (static_dir quiz_id : String) (images_dir_env : Option String) :
    List String :=
  (match images_dir_env with
    | some d => if d = "" then [] else [osJoin d (quiz_id ++ ".png")]
    | none => []) ++ [osJoin static_dir (quiz_id ++ ".png")]

/-- Embedding of `_find_image_relpath` from `data_loader.py`: build the
candidate list, extend it with `static_dir/<name>/<quiz_id>.png` for each
entry of `os.listdir(static_dir)` that is a directory — catching only
`FileNotFoundError` — then run the first-match loop. -/
def _find_image_relpath (fs : FS) (static_dir quiz_id : String)
    (images_dir_env : Option String) : Except OSErr (Option String) :=
  let candidates := baseCandidates static_dir quiz_id images_dir_env
  match fs.listDir static_dir with
  | .ok names =>
      let subs := names.filter (fun name => fs.isDir (osJoin static_dir name))
      .ok (findLoop fs static_dir
        (candidates ++ subs.map (fun name => osJoin (osJoin static_dir name) (quiz_id ++ ".png"))))
  | .error .fileNotFound => .ok (findLoop fs static_dir candidates)
  | .error e => .error e

/-! ## CSV loading (`load_quizzes` in `data_loader.py`) -/

/-- `row[i]`, raising `IndexError` when the row is too short. -/
def pyIndex {α : Type} (row : List α) (i : Nat) : Except PyError α :=
  match row.get? i with
  | some a => .ok a
  | none => .error .indexError

/-- `idx[id_key]` once `id_key` is known to be a key of `idx`
(the default is never reached). -/
def dictGetNat (m : List (String × Nat)) (k : String) : Nat :=
  (dictGet m k).getD 0

/-- The id-column resolution of `load_quizzes`: `"ID" if "ID" in idx
else ("id" if "id" in idx else None)`, then the BOM fallback scanning
`list(idx.keys())` for the first key whose lowercase form ends in `"id"`. -/
def resolveIdKey (idx : List (String × Nat)) : Option String :=
  if dictContains idx "ID" then some "ID"
  else if dictContains idx "id" then some "id"
  else (dictKeys idx).find? (fun k => pyEndsWith "id" (pyLower k))

/-- The column-index dict built from the raw header row:
`idx = {h: i for i, h in enumerate(_normalize_headers(next(rdr)))}`. -/
def headerIdx (headerRow : List String) : List (String × Nat) :=
  pyDictOfEnum (_normalize_headers headerRow)

/-- The `correct` set of one row: the canonical labels whose CSV column
holds a truthy cell, the cell defaulting to `"0"` when the column is
absent from the header or the row is too short. -/
def rowCorrect (idx : List (String × Nat)) (row : List String) : List String :=
  UI_IMPROVEMENTS.filter (fun label =>
    let col := (dictGet LABEL_TO_COL label).getD ""
    match dictGet idx col with
    | some j => _truthy (row.getD j "0")
    | none => _truthy "0")

/-- The body of the `for row in rdr` loop of `load_quizzes` for one row:
`none` when the row is skipped (entirely empty row, or empty trimmed id),
otherwise the key/definition pair inserted into the mapping.  Raises
`IndexError` when the row cannot be subscripted at the id column, and
propagates uncaught `os` errors from the image search. -/
def processRow (fs : FS) (static_dir : String) (images_dir_env : Option String)
    (idx : List (String × Nat)) (iId : Nat) (row : List String) :
    Except PyError (Option (String × QuizDef)) :=
  if row = [] then .ok none
  else
    match pyIndex row iId with
    | .error e => .error e
    | .ok cell =>
      let quiz_id := pyStrip cell
      if quiz_id = "" then .ok none
      else
        match _find_image_relpath fs static_dir quiz_id images_dir_env with
        | .error e => .error (.osErr e)
        | .ok image_rel =>
            .ok (some (quiz_id,
              { id := quiz_id
                improvements := UI_IMPROVEMENTS
                correct := rowCorrect idx row
                image_relpath := image_rel }))

/-- The `for row in rdr` loop of `load_quizzes`, threading the output
dict through `quizzes[quiz_id] = QuizDef(...)`. -/
def loadLoop (fs : FS) (static_dir : String) (images_dir_env : Option String)
    (idx : List (String × Nat)) (iId : Nat) :
    List (List String) → List (String × QuizDef) →
    Except PyError (List (String × QuizDef))
  | [], quizzes => .ok quizzes
  | row :: rest, quizzes =>
    match processRow fs static_dir images_dir_env idx iId row with
    | .error e => .error e
    | .ok none => loadLoop fs static_dir images_dir_env idx iId rest quizzes
    | .ok (some (k, q)) =>
        loadLoop fs static_dir images_dir_env idx iId rest (dictInsert quizzes k q)

/-- Embedding of `load_quizzes` from `data_loader.py`.  A missing CSV
file returns the empty dict; a file with no header row at all makes
`next(rdr)` raise `StopIteration`, which the code catches and turns into
the empty dict; an unresolvable id column returns the empty dict. -/
def load_quizzes (fs : FS) (static_dir csv_path : String)
    (images_dir_env : Option String := none) :
    Except PyError (List (String × QuizDef)) :=
  if !fs.isFile csv_path then .ok []
  else
    match fs.csvRows csv_path with
    | [] => .ok []
    | headerRow :: dataRows =>
      let idx := headerIdx headerRow
      match resolveIdKey idx with
      | none => .ok []
      | some id_key =>
          loadLoop fs static_dir images_dir_env idx (dictGetNat idx id_key) dataRows []

/-! ## Helper lemmas: Python `strip` is idempotent -/

theorem dropWhile_head_false (p : Char → Bool) :
    ∀ (l : List Char) (a : Char) (t : List Char),
      l.dropWhile p = a :: t → p a = false := by
  intro l
  induction l with
  | nil => intro a t h; simp [List.dropWhile] at h
  | cons x xs ih =>
    intro a t h
    rw [List.dropWhile_cons] at h
    by_cases hx : p x = true
    · rw [if_pos hx] at h
      exact ih a t h
    · rw [if_neg hx] at h
      obtain ⟨rfl, -⟩ := List.cons.injEq .. |>.mp h
      simpa using hx

theorem dropWhile_idem (p : Char → Bool) (l : List Char) :
    (l.dropWhile p).dropWhile p = l.dropWhile p := by
  cases h : l.dropWhile p with
  | nil => rfl
  | cons a t =>
    rw [List.dropWhile_cons, dropWhile_head_false p l a t h]
    simp

theorem stripChars_idem (l : List Char) : stripChars (stripChars l) = stripChars l := by
  unfold stripChars dropEndWS dropLeadWS
  set p := pyIsSpace with hp
  set u := l.dropWhile p with hu
  set v := u.reverse.dropWhile p with hv
  have hA : v.reverse.dropWhile p = v.reverse := by
    obtain ⟨s, hs⟩ := List.dropWhile_suffix (l := u.reverse) p
    cases hbv : v.reverse with
    | nil => simp
    | cons b bs =>
      have hrev : u = v.reverse ++ s.reverse := by
        have h1 := congrArg List.reverse hs
        simpa using h1.symm
      have hu2 : l.dropWhile p = b :: (bs ++ s.reverse) := by
        rw [← hu, hrev, hbv]; simp
      have hpb : p b = false := dropWhile_head_false p l b _ hu2
      rw [List.dropWhile_cons, hpb]
      simp
  rw [hA, List.reverse_reverse, hv, dropWhile_idem]

theorem pyStrip_idem (s : String) : pyStrip (pyStrip s) = pyStrip s := by
  unfold pyStrip
  rw [show (String.mk (stripChars s.toList)).toList = stripChars s.toList from rfl,
    stripChars_idem]

/-! ## Helper lemmas: the append-fold of the grader is a `map` -/

theorem foldl_append_eq_map {α β : Type} (f : α → β) :
    ∀ (l : List α) (acc : List β),
      l.foldl (fun a x => a ++ [f x]) acc = acc ++ l.map f := by
  intro l
  induction l with
  | nil => intro acc; simp
  | cons x xs ih => intro acc; simp [ih]

/-! ## Helper lemmas: the Python `dict` model -/

@[simp] theorem dictKeys_nil {α : Type} : dictKeys ([] : List (String × α)) = [] := rfl

@[simp] theorem dictKeys_cons {α : Type} (p : String × α) (t : List (String × α)) :
    dictKeys (p :: t) = p.1 :: dictKeys t := rfl

theorem dictKeys_map_overwrite {α : Type} (m : List (String × α)) (k : String) (v : α) :
    dictKeys (m.map (fun p => if p.1 = k then (k, v) else p)) = dictKeys m := by
  induction m with
  | nil => rfl
  | cons p t ih =>
    by_cases h : p.1 = k
    · simp [h, ih]
    · simp [h, ih]

theorem dictContains_iff {α : Type} (m : List (String × α)) (k : String) :
    dictContains m k = true ↔ k ∈ dictKeys m := by
  unfold dictContains dictKeys
  simp [List.any_eq_true, List.mem_map]

theorem dictKeys_insert {α : Type} (m : List (String × α)) (k : String) (v : α) :
    dictKeys (dictInsert m k v) =
      if dictContains m k then dictKeys m else dictKeys m ++ [k] := by
  unfold dictInsert dictContains
  by_cases h : (m.any fun p => p.1 = k) = true
  · rw [if_pos h, if_pos h, dictKeys_map_overwrite]
  · rw [if_neg h, if_neg h]
    simp [dictKeys]

theorem find?_map_overwrite_self {α : Type} (k : String) (v : α) :
    ∀ m : List (String × α), (m.any fun p => p.1 = k) = true →
      List.find? (fun p => p.1 = k) (m.map (fun p => if p.1 = k then (k, v) else p))
        = some (k, v) := by
  intro m
  induction m with
  | nil => intro h; simp at h
  | cons p t ih =>
    intro h
    by_cases hp : p.1 = k
    · rw [List.map_cons, if_pos hp]
      exact List.find?_cons_of_pos _ (by simp)
    · rw [List.map_cons, if_neg hp,
        List.find?_cons_of_neg _ (by simpa using hp)]
      apply ih
      simp only [List.any_cons, Bool.or_eq_true, decide_eq_true_eq] at h
      rcases h with h | h
      · exact absurd h hp
      · exact h

theorem find?_map_overwrite_ne {α : Type} (k k' : String) (v : α) (hne : k' ≠ k) :
    ∀ m : List (String × α),
      List.find? (fun p => p.1 = k') (m.map (fun p => if p.1 = k then (k, v) else p))
        = List.find? (fun p => p.1 = k') m := by
  intro m
  induction m with
  | nil => rfl
  | cons p t ih =>
    by_cases hp : p.1 = k
    · rw [List.map_cons, if_pos hp,
        List.find?_cons_of_neg _ (by simpa using fun hkk' => hne hkk'.symm),
        List.find?_cons_of_neg _ (by simp [hp]; exact fun hkk' => hne hkk'.symm)]
      exact ih
    · rw [List.map_cons, if_neg hp]
      by_cases hpk' : p.1 = k'
      · rw [List.find?_cons_of_pos _ (by simpa using hpk'),
          List.find?_cons_of_pos _ (by simpa using hpk')]
      · rw [List.find?_cons_of_neg _ (by simpa using hpk'),
          List.find?_cons_of_neg _ (by simpa using hpk')]
        exact ih

theorem find?_none_of_not_any {α : Type} (m : List (String × α)) (k : String)
    (h : ¬(m.any fun p => p.1 = k) = true) :
    List.find? (fun p => p.1 = k) m = none := by
  rw [List.find?_eq_none]
  intro x hx
  simp only [List.any_eq_true, decide_eq_true_eq] at h
  simp only [decide_eq_true_eq]
  exact fun hxk => h ⟨x, hx, hxk⟩

theorem dictGet_insert_self {α : Type} (m : List (String × α)) (k : String) (v : α) :
    dictGet (dictInsert m k v) k = some v := by
  unfold dictInsert
  by_cases h : (m.any fun p => p.1 = k) = true
  · rw [if_pos h]
    unfold dictGet
    rw [find?_map_overwrite_self k v m h]
    rfl
  · rw [if_neg h]
    unfold dictGet
    rw [List.find?_append, find?_none_of_not_any m k h]
    simp

theorem dictGet_insert_ne {α : Type} (m : List (String × α)) (k k' : String) (v : α)
    (hne : k' ≠ k) : dictGet (dictInsert m k v) k' = dictGet m k' := by
  unfold dictInsert
  by_cases h : (m.any fun p => p.1 = k) = true
  · rw [if_pos h]
    unfold dictGet
    rw [find?_map_overwrite_ne k k' v hne m]
  · rw [if_neg h]
    unfold dictGet
    rw [List.find?_append]
    have h2 : List.find? (fun p => p.1 = k') [(k, v)] = none :=
      List.find?_cons_of_neg _ (by simpa using fun hkk' => hne hkk'.symm)
    rw [h2]
    simp

theorem dictKeys_insert_nodup {α : Type} (m : List (String × α)) (k : String) (v : α)
    (h : (dictKeys m).Nodup) : (dictKeys (dictInsert m k v)).Nodup := by
  rw [dictKeys_insert]
  by_cases hc : dictContains m k
  · rw [if_pos hc]; exact h
  · rw [if_neg hc]
    rw [List.nodup_append]
    refine ⟨h, List.nodup_singleton k, ?_⟩
    intro x hx hx'
    simp only [List.mem_singleton] at hx'
    subst hx'
    exact hc ((dictContains_iff m x).mpr hx)

theorem mem_keys_insert {α : Type} (m : List (String × α)) (k k' : String) (v : α) :
    k' ∈ dictKeys (dictInsert m k v) ↔ k' ∈ dictKeys m ∨ k' = k := by
  rw [dictKeys_insert]
  by_cases hc : dictContains m k
  · rw [if_pos hc]
    constructor
    · exact Or.inl
    · rintro (h | rfl)
      · exact h
      · exact (dictContains_iff m k').mp hc
  · rw [if_neg hc]
    simp [List.mem_append]

theorem mem_keys_foldl (l : List (Nat × String)) :
    ∀ (m : List (String × Nat)) (k : String),
      k ∈ dictKeys (l.foldl (fun m p => dictInsert m p.2 p.1) m) ↔
        k ∈ dictKeys m ∨ k ∈ l.map Prod.snd := by
  induction l with
  | nil => intro m k; simp
  | cons p t ih =>
    intro m k
    simp only [List.foldl_cons, List.map_cons, List.mem_cons]
    rw [ih, mem_keys_insert]
    tauto

theorem mem_keys_pyDictOfEnum (headers : List String) (k : String) :
    k ∈ dictKeys (pyDictOfEnum headers) ↔ k ∈ headers := by
  unfold pyDictOfEnum
  rw [mem_keys_foldl]
  simp [List.enum_map_snd]

theorem find?_keys_foldl (p : String → Bool) (l : List (Nat × String)) :
    ∀ m : List (String × Nat),
      (dictKeys (l.foldl (fun m q => dictInsert m q.2 q.1) m)).find? p
        = ((dictKeys m).find? p).or ((l.map Prod.snd).find? p) := by
  induction l with
  | nil => intro m; simp [Option.or]; cases (dictKeys m).find? p <;> rfl
  | cons q t ih =>
    intro m
    simp only [List.foldl_cons, List.map_cons]
    rw [ih, dictKeys_insert]
    by_cases hc : dictContains m q.2
    · rw [if_pos hc]
      cases hfm : (dictKeys m).find? p with
      | some x => rfl
      | none =>
        show (t.map Prod.snd).find? p = (q.2 :: t.map Prod.snd).find? p
        have hq : ¬p q.2 = true := (List.find?_eq_none).mp hfm q.2 ((dictContains_iff m q.2).mp hc)
        rw [List.find?_cons_of_neg _ hq]
    · rw [if_neg hc, List.find?_append]
      cases hfm : (dictKeys m).find? p with
      | some x => rfl
      | none =>
        show ([q.2].find? p).or ((t.map Prod.snd).find? p) = (q.2 :: t.map Prod.snd).find? p
        by_cases hq : p q.2 = true
        · rw [List.find?_cons_of_pos _ hq, List.find?_cons_of_pos _ hq]
          rfl
        · rw [List.find?_cons_of_neg _ hq, List.find?_cons_of_neg _ hq]
          rfl

theorem find?_keys_pyDictOfEnum (p : String → Bool) (headers : List String) :
    (dictKeys (pyDictOfEnum headers)).find? p = headers.find? p := by
  unfold pyDictOfEnum
  rw [find?_keys_foldl]
  simp [List.enum_map_snd]

/-! ## Spec-side characterizations -/

/-- Modelled from the spec's words: the id-column resolution strategies
tried in order over the normalized headers — exact `ID`, exact `id`,
then the first header whose lowercase form ends in `id`. -/
def specResolveIdKey (headers : List String) : Option String :=
  if headers.contains "ID" then some "ID"
  else if headers.contains "id" then some "id"
  else headers.find? (fun k => pyEndsWith "id" (pyLower k))

theorem contains_eq_mem_decide (l : List String) (k : String) :
    l.contains k = decide (k ∈ l) := by
  simp [List.contains, List.elem_eq_mem]

theorem resolveIdKey_eq_spec (headers : List String) :
    resolveIdKey (pyDictOfEnum headers) = specResolveIdKey headers := by
  unfold resolveIdKey specResolveIdKey
  have hID : dictContains (pyDictOfEnum headers) "ID" = headers.contains "ID" := by
    rw [contains_eq_mem_decide]
    by_cases h : "ID" ∈ headers
    · rw [decide_eq_true h]
      exact (dictContains_iff ..).mpr ((mem_keys_pyDictOfEnum ..).mpr h)
    · rw [decide_eq_false h]
      rw [← Bool.not_eq_true]
      exact fun hc => h ((mem_keys_pyDictOfEnum ..).mp ((dictContains_iff ..).mp hc))
  have hid : dictContains (pyDictOfEnum headers) "id" = headers.contains "id" := by
    rw [contains_eq_mem_decide]
    by_cases h : "id" ∈ headers
    · rw [decide_eq_true h]
      exact (dictContains_iff ..).mpr ((mem_keys_pyDictOfEnum ..).mpr h)
    · rw [decide_eq_false h]
      rw [← Bool.not_eq_true]
      exact fun hc => h ((mem_keys_pyDictOfEnum ..).mp ((dictContains_iff ..).mp hc))
  rw [hID, hid, find?_keys_pyDictOfEnum]

/-- The per-candidate test of the image-search loop: a regular file whose
path relative to the static root does not start with `".."`, returned
with forward slashes. -/
def matchCandidate (fs : FS) (static_dir p : String) : Option String :=
  if fs.isFile p && !(pyStartsWith ".." (pyRelpath fs.cwd p static_dir)) then
    some (replaceChar '\\' '/' (pyRelpath fs.cwd p static_dir))
  else none

theorem findLoop_eq_findSome? (fs : FS) (static_dir : String) (l : List String) :
    findLoop fs static_dir l = l.findSome? (matchCandidate fs static_dir) := by
  induction l with
  | nil => rfl
  | cons p rest ih =>
    rw [List.findSome?_cons]
    show (if fs.isFile p then
            if pyStartsWith ".." (pyRelpath fs.cwd p static_dir) then
              findLoop fs static_dir rest
            else some (replaceChar '\\' '/' (pyRelpath fs.cwd p static_dir))
          else findLoop fs static_dir rest) = _
    by_cases hf : fs.isFile p = true
    · by_cases hs : pyStartsWith ".." (pyRelpath fs.cwd p static_dir) = true
      · have hm : matchCandidate fs static_dir p = none := by
          unfold matchCandidate
          simp [hs]
        rw [hm, if_pos hf, if_pos hs]
        exact ih
      · have hm : matchCandidate fs static_dir p
            = some (replaceChar '\\' '/' (pyRelpath fs.cwd p static_dir)) := by
          unfold matchCandidate
          simp [hf, hs]
        rw [hm, if_pos hf, if_neg hs]
    · have hm : matchCandidate fs static_dir p = none := by
        unfold matchCandidate
        simp [hf]
      rw [hm, if_neg hf]
      exact ih

/-- The immediate subdirectories of the static root, treating a failed
directory listing as empty. -/
def specSubdirs (fs : FS) (static_dir : String) : List String :=
  match fs.listDir static_dir with
  | .ok names => names.filter (fun name => fs.isDir (osJoin static_dir name))
  | .error _ => []

/-- Modelled from the spec's words: the full ordered candidate list —
override path when an override is provided, then
`static_dir/<id>.png`, then `static_dir/<subdir>/<id>.png` for every
immediate subdirectory. -/
def specCandidates (fs : FS) (static_dir quiz_id : String)
    (images_dir_env : Option String) : List String :=
  (match images_dir_env with
    | some d => [osJoin d (quiz_id ++ ".png")]
    | none => []) ++
  [osJoin static_dir (quiz_id ++ ".png")] ++
  (specSubdirs fs static_dir).map (fun name => osJoin (osJoin static_dir name) (quiz_id ++ ".png"))

/-- Modelled from the spec's words: the first candidate that is a regular
file and does not escape the static root, with forward-slash separators. -/
def specFindImage (fs : FS) (static_dir quiz_id : String)
    (images_dir_env : Option String) : Option String :=
  (specCandidates fs static_dir quiz_id images_dir_env).findSome? (matchCandidate fs static_dir)

theorem baseCandidates_of_ne (static_dir quiz_id : String) (ov : Option String)
    (hov : ∀ d, ov = some d → d ≠ "") :
    baseCandidates static_dir quiz_id ov =
      ov.elim [] (fun d => [osJoin d (quiz_id ++ ".png")]) ++
        [osJoin static_dir (quiz_id ++ ".png")] := by
  cases ov with
  | none => rfl
  | some d =>
    unfold baseCandidates
    dsimp only
    rw [if_neg (hov d rfl)]
    rfl

theorem find_image_eq_spec (fs : FS) (static_dir quiz_id : String) (ov : Option String)
    (hov : ∀ d, ov = some d → d ≠ "")
    (hls : ∀ e, fs.listDir static_dir = .error e → e = OSErr.fileNotFound) :
    _find_image_relpath fs static_dir quiz_id ov
      = .ok (specFindImage fs static_dir quiz_id ov) := by
  have hspec : specCandidates fs static_dir quiz_id ov =
      ov.elim [] (fun d => [osJoin d (quiz_id ++ ".png")]) ++
        [osJoin static_dir (quiz_id ++ ".png")] ++
        (specSubdirs fs static_dir).map
          (fun name => osJoin (osJoin static_dir name) (quiz_id ++ ".png")) := by
    unfold specCandidates
    cases ov <;> rfl
  unfold _find_image_relpath
  unfold specFindImage
  rw [hspec, baseCandidates_of_ne static_dir quiz_id ov hov]
  cases hld : fs.listDir static_dir with
  | ok names =>
      dsimp only
      rw [findLoop_eq_findSome?]
      unfold specSubdirs
      rw [hld]
  | error e =>
      have he := hls e hld
      subst he
      dsimp only
      rw [findLoop_eq_findSome?]
      unfold specSubdirs
      rw [hld]
      simp

theorem find_image_ok (fs : FS) (static_dir quiz_id : String) (ov : Option String)
    (hls : ∀ e, fs.listDir static_dir = .error e → e = OSErr.fileNotFound) :
    ∃ r, _find_image_relpath fs static_dir quiz_id ov = .ok r := by
  unfold _find_image_relpath
  cases hld : fs.listDir static_dir with
  | ok names => exact ⟨_, rfl⟩
  | error e =>
      have he := hls e hld
      subst he
      exact ⟨_, rfl⟩

/-! ## Helper lemmas: the row loop of `load_quizzes` -/

theorem processRow_ok (fs : FS) (static_dir : String) (ov : Option String)
    (idx : List (String × Nat)) (iId : Nat) (row : List String)
    (hlen : row ≠ [] → iId < row.length)
    (hls : ∀ e, fs.listDir static_dir = .error e → e = OSErr.fileNotFound) :
    ∃ r, processRow fs static_dir ov idx iId row = .ok r := by
  unfold processRow
  by_cases hrow : row = []
  · rw [if_pos hrow]
    exact ⟨none, rfl⟩
  · rw [if_neg hrow]
    have hidx : pyIndex row iId = .ok (row.get ⟨iId, hlen hrow⟩) := by
      unfold pyIndex
      rw [List.get?_eq_get (hlen hrow)]
    rw [hidx]
    dsimp only
    by_cases hq : pyStrip (row.get ⟨iId, hlen hrow⟩) = ""
    · rw [if_pos hq]
      exact ⟨none, rfl⟩
    · rw [if_neg hq]
      obtain ⟨r, hr⟩ := find_image_ok fs static_dir (pyStrip (row.get ⟨iId, hlen hrow⟩)) ov hls
      rw [hr]
      exact ⟨_, rfl⟩

theorem loadLoop_ok (fs : FS) (static_dir : String) (ov : Option String)
    (idx : List (String × Nat)) (iId : Nat)
    (hls : ∀ e, fs.listDir static_dir = .error e → e = OSErr.fileNotFound) :
    ∀ (rows : List (List String)) (acc : List (String × QuizDef)),
      (∀ row ∈ rows, row ≠ [] → iId < row.length) →
      ∃ m, loadLoop fs static_dir ov idx iId rows acc = .ok m := by
  intro rows
  induction rows with
  | nil => intro acc _; exact ⟨acc, rfl⟩
  | cons row rest ih =>
    intro acc hlen
    obtain ⟨r, hr⟩ :=
      processRow_ok fs static_dir ov idx iId row (hlen row (by simp)) hls
    unfold loadLoop
    rw [hr]
    cases r with
    | none => exact ih acc (fun r hr => hlen r (List.mem_cons_of_mem _ hr))
    | some kq =>
        exact ih (dictInsert acc kq.1 kq.2) (fun r hr => hlen r (List.mem_cons_of_mem _ hr))

theorem processRow_some_inv (fs : FS) (static_dir : String) (ov : Option String)
    (idx : List (String × Nat)) (iId : Nat) (row : List String)
    (k : String) (q : QuizDef)
    (h : processRow fs static_dir ov idx iId row = .ok (some (k, q))) :
    k ≠ "" ∧ pyStrip k = k ∧ q.id = k ∧ q.improvements = UI_IMPROVEMENTS ∧
      ∀ x ∈ q.correct, x ∈ UI_IMPROVEMENTS := by
  unfold processRow at h
  by_cases hrow : row = []
  · rw [if_pos hrow] at h
    simp at h
  · rw [if_neg hrow] at h
    cases hidx : pyIndex row iId with
    | error e =>
      rw [hidx] at h
      simp at h
    | ok cell =>
      rw [hidx] at h
      dsimp only at h
      by_cases hq : pyStrip cell = ""
      · rw [if_pos hq] at h
        simp at h
      · rw [if_neg hq] at h
        cases hfi : _find_image_relpath fs static_dir (pyStrip cell) ov with
        | error e =>
          rw [hfi] at h
          simp at h
        | ok img =>
          rw [hfi] at h
          simp only [Except.ok.injEq, Option.some.injEq, Prod.mk.injEq] at h
          obtain ⟨hk, hqdef⟩ := h
          subst hk
          subst hqdef
          refine ⟨hq, pyStrip_idem cell, rfl, rfl, ?_⟩
          intro x hx
          have hx2 : x ∈ rowCorrect idx row := hx
          unfold rowCorrect at hx2
          exact List.mem_of_mem_filter hx2

theorem dictInsert_forall {α : Type} (P : String × α → Prop)
    (m : List (String × α)) (k : String) (v : α)
    (hm : ∀ p ∈ m, P p) (hkv : P (k, v)) : ∀ p ∈ dictInsert m k v, P p := by
  unfold dictInsert
  by_cases h : (m.any fun p => p.1 = k) = true
  · rw [if_pos h]
    intro p hp
    obtain ⟨p0, hp0, rfl⟩ := List.mem_map.mp hp
    by_cases h0 : p0.1 = k
    · rw [if_pos h0]
      exact hkv
    · rw [if_neg h0]
      exact hm p0 hp0
  · rw [if_neg h]
    intro p hp
    rcases List.mem_append.mp hp with h1 | h1
    · exact hm p h1
    · rw [List.mem_singleton] at h1
      subst h1
      exact hkv

theorem loadLoop_inv (fs : FS) (static_dir : String) (ov : Option String)
    (idx : List (String × Nat)) (iId : Nat) (P : String × QuizDef → Prop)
    (hP : ∀ row k q, processRow fs static_dir ov idx iId row = .ok (some (k, q)) → P (k, q)) :
    ∀ (rows : List (List String)) (acc m : List (String × QuizDef)),
      loadLoop fs static_dir ov idx iId rows acc = .ok m →
      (∀ p ∈ acc, P p) → ∀ p ∈ m, P p := by
  intro rows
  induction rows with
  | nil =>
    intro acc m h hacc
    cases h
    exact hacc
  | cons row rest ih =>
    intro acc m h hacc
    unfold loadLoop at h
    cases hpr : processRow fs static_dir ov idx iId row with
    | error e => rw [hpr] at h; cases h
    | ok r =>
      rw [hpr] at h
      cases r with
      | none => exact ih acc m h hacc
      | some kq =>
        refine ih (dictInsert acc kq.1 kq.2) m h ?_
        exact dictInsert_forall P acc kq.1 kq.2 hacc (hP row kq.1 kq.2 (by rw [hpr]))

theorem loadLoop_nodup (fs : FS) (static_dir : String) (ov : Option String)
    (idx : List (String × Nat)) (iId : Nat) :
    ∀ (rows : List (List String)) (acc m : List (String × QuizDef)),
      loadLoop fs static_dir ov idx iId rows acc = .ok m →
      (dictKeys acc).Nodup → (dictKeys m).Nodup := by
  intro rows
  induction rows with
  | nil =>
    intro acc m h hacc
    cases h
    exact hacc
  | cons row rest ih =>
    intro acc m h hacc
    unfold loadLoop at h
    cases hpr : processRow fs static_dir ov idx iId row with
    | error e => rw [hpr] at h; cases h
    | ok r =>
      rw [hpr] at h
      cases r with
      | none => exact ih acc m h hacc
      | some kq => exact ih _ m h (dictKeys_insert_nodup acc kq.1 kq.2 hacc)

/-- The contribution one CSV row makes towards the mapping entry of a
given id: the quiz definition built from that row, when the row is not
skipped and its trimmed id is the given one. -/
def rowContribution (fs : FS) (static_dir : String) (ov : Option String)
    (idx : List (String × Nat)) (iId : Nat) (k : String) (row : List String) :
    Option QuizDef :=
  match processRow fs static_dir ov idx iId row with
  | .ok (some (k', q)) => if k' = k then some q else none
  | _ => none

theorem loadLoop_lookup (fs : FS) (static_dir : String) (ov : Option String)
    (idx : List (String × Nat)) (iId : Nat) :
    ∀ (rows : List (List String)) (acc m : List (String × QuizDef)),
      loadLoop fs static_dir ov idx iId rows acc = .ok m →
      ∀ k, dictGet m k =
        (rows.reverse.findSome? (rowContribution fs static_dir ov idx iId k)).or
          (dictGet acc k) := by
  intro rows
  induction rows with
  | nil =>
    intro acc m h k
    cases h
    rfl
  | cons row rest ih =>
    intro acc m h k
    unfold loadLoop at h
    rw [List.reverse_cons, List.findSome?_append]
    cases hpr : processRow fs static_dir ov idx iId row with
    | error e => rw [hpr] at h; cases h
    | ok r =>
      rw [hpr] at h
      have hsingle : [row].findSome? (rowContribution fs static_dir ov idx iId k)
          = rowContribution fs static_dir ov idx iId k row := by
        rw [List.findSome?_cons]
        cases rowContribution fs static_dir ov idx iId k row <;> rfl
      rw [hsingle]
      cases r with
      | none =>
        have hcontrib : rowContribution fs static_dir ov idx iId k row = none := by
          unfold rowContribution
          rw [hpr]
        rw [hcontrib, ih acc m h k]
        cases (rest.reverse.findSome? (rowContribution fs static_dir ov idx iId k)) <;> rfl
      | some kq =>
        have hik := ih (dictInsert acc kq.1 kq.2) m h k
        have hcontrib : rowContribution fs static_dir ov idx iId k row
            = if kq.1 = k then some kq.2 else none := by
          unfold rowContribution
          rw [hpr]
        rw [hcontrib, hik]
        cases hA : (rest.reverse.findSome? (rowContribution fs static_dir ov idx iId k)) with
        | some x => rfl
        | none =>
          show dictGet (dictInsert acc kq.1 kq.2) k
              = (if kq.1 = k then some kq.2 else none).or (dictGet acc k)
          by_cases hk : kq.1 = k
          · subst hk
            rw [if_pos rfl, dictGet_insert_self]
            rfl
          · rw [if_neg hk, dictGet_insert_ne acc kq.1 k kq.2 (fun hkk => hk hkk.symm)]
            rfl

theorem load_quizzes_not_file (fs : FS) (static_dir csv_path : String) (ov : Option String)
    (h : fs.isFile csv_path = false) : load_quizzes fs static_dir csv_path ov = .ok [] := by
  unfold load_quizzes
  rw [h]
  rfl

theorem load_quizzes_file (fs : FS) (static_dir csv_path : String) (ov : Option String)
    (hfile : fs.isFile csv_path = true) :
    load_quizzes fs static_dir csv_path ov =
      match fs.csvRows csv_path with
      | [] => .ok []
      | headerRow :: dataRows =>
        match resolveIdKey (headerIdx headerRow) with
        | none => .ok []
        | some id_key =>
            loadLoop fs static_dir ov (headerIdx headerRow)
              (dictGetNat (headerIdx headerRow) id_key) dataRows [] := by
  unfold load_quizzes
  rw [hfile]
  rfl

/-! ## The claims -/

/-- Claim C1: `grade` returns one row per label of the quiz's
improvements, in order, with `answered` = membership of the label in the
selection, `correct` = membership in the quiz's correct set, `is_wrong` =
their disagreement; the score counts rows that are not wrong and the
total counts all rows.  For improvements `[A,B,C]`, correct set `{A,C}`
and selection `{A,B}` this gives the three rows of the claim with
score 1 and total 3. -/
theorem C1_grade_per_label : ∀ (q : QuizDef) (selected : List String),
    (grade q selected).rows = q.improvements.map (fun item =>
      { item := item
        answered := decide (item ∈ selected)
        correct := decide (item ∈ q.correct)
        is_wrong := decide (item ∈ selected) != decide (item ∈ q.correct) }) ∧
    (grade q selected).score
      = ((grade q selected).rows.filter (fun r => !r.is_wrong)).length ∧
    (grade q selected).total = (grade q selected).rows.length ∧
    grade ⟨"x", ["A", "B", "C"], ["A", "C"], none⟩ ["A", "B"]
      = ⟨1, 3, [⟨"A", true, true, false⟩, ⟨"B", true, false, true⟩,
          ⟨"C", false, true, true⟩]⟩ := by
  intro q selected
  refine ⟨?_, ?_, rfl, by decide⟩
  · show q.improvements.foldl _ [] = _
    rw [foldl_append_eq_map]
    rw [List.nil_append]
    simp only [contains_eq_mem_decide]
  · show (q.improvements.foldl _ []).countP _ = _
    rw [List.countP_eq_length_filter]
    rfl

/-- Claim C8: the truthy check accepts exactly the strings whose trimmed,
lowercased form is one of `1`, `true`, `yes`, `y`, and the listed
concrete inputs evaluate as the spec states. -/
theorem C8_truthy_check :
    (∀ s, _truthy s = true ↔
      pyLower (pyStrip s) ∈ (["1", "true", "yes", "y"] : List String)) ∧
    _truthy "1" = true ∧ _truthy "true" = true ∧ _truthy "Yes" = true ∧
    _truthy "y" = true ∧ _truthy "0" = false ∧ _truthy "" = false ∧
    _truthy "false" = false ∧ _truthy "no" = false ∧ _truthy "banana" = false ∧
    _truthy " TRUE " = true := by
  refine ⟨?_, by decide, by decide, by decide, by decide, by decide, by decide,
    by decide, by decide, by decide, by decide⟩
  intro s
  unfold _truthy
  rw [contains_eq_mem_decide, decide_eq_true_eq]

/-- Witness for C8 at the concrete input `"YES"`. -/
theorem C8_truthy_check_witness : _truthy "YES" = true :=
  (C8_truthy_check.1 "YES").mpr (by decide)

/-- Claim C9: when the CSV path does not reference an existing file,
`load_quizzes` returns the empty mapping and raises nothing. -/
theorem C9_missing_csv : ∀ (fs : FS) (static_dir csv_path : String) (ov : Option String),
    fs.isFile csv_path = false →
    load_quizzes fs static_dir csv_path ov = .ok [] := by
  intro fs s c ov h
  exact load_quizzes_not_file fs s c ov h

/-- A filesystem with no files at all. -/
def fsNoCsv : FS :=
  { cwd := []
    isFile := fun _ => false
    isDir := fun _ => false
    listDir := fun _ => .error .fileNotFound
    csvRows := fun _ => [] }

/-- Witness for C9 on a filesystem without the CSV file. -/
theorem C9_missing_csv_witness : load_quizzes fsNoCsv "/s" "/data.csv" none = .ok [] :=
  C9_missing_csv fsNoCsv "/s" "/data.csv" none rfl

/-- Claim C10: an existing but completely empty CSV file (no header row,
so `next(rdr)` raises `StopIteration`, which is caught) makes
`load_quizzes` return the empty mapping without propagating anything. -/
theorem C10_empty_csv : ∀ (fs : FS) (static_dir csv_path : String) (ov : Option String),
    fs.csvRows csv_path = [] →
    load_quizzes fs static_dir csv_path ov = .ok [] := by
  intro fs s c ov h
  by_cases hfile : fs.isFile c = true
  · rw [load_quizzes_file fs s c ov hfile, h]
  · exact load_quizzes_not_file fs s c ov (by rwa [Bool.not_eq_true] at hfile)

/-- A filesystem whose CSV file exists but is completely empty. -/
def fsEmptyCsv : FS :=
  { cwd := []
    isFile := fun p => p = "/data.csv"
    isDir := fun _ => false
    listDir := fun _ => .error .fileNotFound
    csvRows := fun _ => [] }

/-- Witness for C10 on a filesystem whose CSV file is empty. -/
theorem C10_empty_csv_witness : load_quizzes fsEmptyCsv "/s" "/data.csv" none = .ok [] :=
  C10_empty_csv fsEmptyCsv "/s" "/data.csv" none rfl

/-- A filesystem whose CSV has the id column second (`["a", "ID"]`) and a
data row with a single cell, so the row cannot be subscripted at the id
column. -/
def fsShortRow : FS :=
  { cwd := []
    isFile := fun p => p = "/c.csv"
    isDir := fun _ => false
    listDir := fun _ => .error .fileNotFound
    csvRows := fun p => if p = "/c.csv" then [["a", "ID"], ["x"]] else [] }

/-- Counterexample to claim C2 as stated: with header `a,ID` and the
one-cell data row `x`, the id-column subscript `row[idx[id_key]]` is out
of bounds and `load_quizzes` raises `IndexError` rather than defaulting
the missing cell — rows shorter than the id column index are not
tolerated. -/
theorem C2_counterexample :
    load_quizzes fsShortRow "/s" "/c.csv" none = .error PyError.indexError := by
  rfl

/-- Claim C2 (amended): an existing CSV with a resolvable id column loads
without exception provided every non-empty data row extends past the id
column index (and the static directory listing fails only with
file-not-found); entirely empty rows and rows with an empty trimmed id
are skipped; improvement-label cells beyond a row's length default to
the falsy `"0"`.  Rows shorter than the id column index itself raise
`IndexError` (see the counterexample). -/
theorem C2_no_exception : ∀ (fs : FS) (static_dir csv_path : String) (ov : Option String)
    (headerRow : List String) (dataRows : List (List String)) (id_key : String),
    fs.csvRows csv_path = headerRow :: dataRows →
    resolveIdKey (headerIdx headerRow) = some id_key →
    (∀ row ∈ dataRows, row ≠ [] →
      dictGetNat (headerIdx headerRow) id_key < row.length) →
    (∀ e, fs.listDir static_dir = .error e → e = OSErr.fileNotFound) →
    (∃ m, load_quizzes fs static_dir csv_path ov = .ok m) ∧
    processRow fs static_dir ov (headerIdx headerRow)
      (dictGetNat (headerIdx headerRow) id_key) [] = .ok none ∧
    (∀ row cell,
      pyIndex row (dictGetNat (headerIdx headerRow) id_key) = .ok cell →
      pyStrip cell = "" →
      processRow fs static_dir ov (headerIdx headerRow)
        (dictGetNat (headerIdx headerRow) id_key) row = .ok none) := by
  intro fs s c ov hr dr key hrows hres hlen hls
  refine ⟨?_, ?_, ?_⟩
  · by_cases hfile : fs.isFile c = true
    · rw [load_quizzes_file fs s c ov hfile, hrows]
      dsimp only
      rw [hres]
      dsimp only
      exact loadLoop_ok fs s ov (headerIdx hr) (dictGetNat (headerIdx hr) key) hls dr [] hlen
    · exact ⟨[], load_quizzes_not_file fs s c ov (by rwa [Bool.not_eq_true] at hfile)⟩
  · unfold processRow
    rw [if_pos rfl]
  · intro row cell hpy hstrip
    have hrow : row ≠ [] := by
      intro hnil
      subst hnil
      unfold pyIndex at hpy
      rw [List.get?_nil] at hpy
      exact Except.noConfusion hpy
    unfold processRow
    rw [if_neg hrow, hpy]
    dsimp only
    rw [if_pos hstrip]

/-- A well-formed one-row CSV used to witness C2. -/
def fsGoodCsv : FS :=
  { cwd := []
    isFile := fun p => p = "/c.csv"
    isDir := fun _ => false
    listDir := fun _ => .error .fileNotFound
    csvRows := fun p => if p = "/c.csv" then [["ID", "ch1"], ["q1", "1"]] else [] }

/-- Witness for C2 (amended) on a well-formed one-row CSV. -/
theorem C2_no_exception_witness :
    ∃ m, load_quizzes fsGoodCsv "/s" "/c.csv" none = .ok m :=
  (C2_no_exception fsGoodCsv "/s" "/c.csv" none ["ID", "ch1"] [["q1", "1"]] "ID"
    rfl (by rfl)
    (by
      intro row hrow hne
      simp only [List.mem_singleton] at hrow
      subst hrow
      decide)
    (by
      intro e he
      have h2 : (Except.error OSErr.fileNotFound : Except OSErr (List String))
          = .error e := he
      injection h2 with h3
      exact h3.symm)).1

/-- Claim C3: the image search returns exactly the first candidate — in
override, static-root, subdirectory order — that is a regular file and
whose path relative to the static root does not start with a
parent-directory segment, with forward-slash separators; when no
candidate qualifies the result is `none`. -/
theorem C3_image_search : ∀ (fs : FS) (static_dir quiz_id : String) (ov : Option String),
    (∀ d, ov = some d → d ≠ "") →
    (∀ e, fs.listDir static_dir = .error e → e = OSErr.fileNotFound) →
    _find_image_relpath fs static_dir quiz_id ov
      = .ok (specFindImage fs static_dir quiz_id ov) := by
  intro fs s id ov h1 h2
  exact find_image_eq_spec fs s id ov h1 h2

/-- A filesystem where the only existing image sits in an override
directory `/o` outside the static root `/s`. -/
def fsOutside : FS :=
  { cwd := []
    isFile := fun p => p = "/o/q.png"
    isDir := fun _ => false
    listDir := fun p => if p = "/s" then .ok [] else .error .fileNotFound
    csvRows := fun _ => [] }

/-- Witness for C3: with the only file in an override directory outside
the static root, the escape check rejects it and no image is returned. -/
theorem C3_image_search_witness :
    _find_image_relpath fsOutside "/s" "q" (some "/o") = .ok none := by
  have h := C3_image_search fsOutside "/s" "q" (some "/o")
    (by
      intro d hd
      injection hd with h2
      subst h2
      decide)
    (by
      intro e he
      have h2 : (Except.ok ([] : List String) : Except OSErr (List String))
          = .error e := he
      exact Except.noConfusion h2)
  rw [h]
  rfl

/-- A filesystem whose static root `/s` exists as a regular file, so
`os.listdir` raises `NotADirectoryError` — which `except
FileNotFoundError` does not catch. -/
def fsNotADir : FS :=
  { cwd := []
    isFile := fun p => p = "/s"
    isDir := fun _ => false
    listDir := fun p => if p = "/s" then .error .notADirectory else .error .fileNotFound
    csvRows := fun _ => [] }

/-- The same filesystem with `/s` an empty directory instead. -/
def fsEmptyDir : FS :=
  { cwd := []
    isFile := fun p => p = "/s"
    isDir := fun _ => false
    listDir := fun p => if p = "/s" then .ok [] else .error .fileNotFound
    csvRows := fun _ => [] }

/-- Counterexample to claim C4 as stated: when the static root is an
existing non-directory, the image search propagates
`NotADirectoryError` instead of behaving like the zero-subdirectory
filesystem, which returns `none` without error. -/
theorem C4_counterexample :
    _find_image_relpath fsNotADir "/s" "q" none = .error OSErr.notADirectory ∧
    _find_image_relpath fsEmptyDir "/s" "q" none = .ok none := by
  exact ⟨rfl, rfl⟩

/-- The same filesystem with the static root's listing emptied: the
"as if staticRoot had zero subdirectories" comparison point. -/
def zeroSubdirs (fs : FS) (static_dir : String) : FS :=
  { fs with listDir := fun p => if p = static_dir then .ok [] else fs.listDir p }

theorem findLoop_congr (fs fs' : FS) (static_dir : String)
    (hfile : fs'.isFile = fs.isFile) (hcwd : fs'.cwd = fs.cwd) (l : List String) :
    findLoop fs' static_dir l = findLoop fs static_dir l := by
  rw [findLoop_eq_findSome?, findLoop_eq_findSome?]
  congr 1
  funext p
  unfold matchCandidate
  rw [hfile, hcwd]

/-- Claim C4 (amended): only a missing static root (file-not-found from
the directory listing) is tolerated; in that case subdirectory
enumeration is skipped without error and the search behaves exactly as
if the static root had zero subdirectories.  An existing non-directory
or unreadable static root propagates its error (see the
counterexample). -/
theorem C4_missing_root : ∀ (fs : FS) (static_dir quiz_id : String) (ov : Option String),
    fs.listDir static_dir = .error OSErr.fileNotFound →
    _find_image_relpath fs static_dir quiz_id ov
        = .ok (findLoop fs static_dir (baseCandidates static_dir quiz_id ov)) ∧
    _find_image_relpath fs static_dir quiz_id ov
        = _find_image_relpath (zeroSubdirs fs static_dir) static_dir quiz_id ov := by
  intro fs s id ov h
  constructor
  · unfold _find_image_relpath
    rw [h]
  · unfold _find_image_relpath zeroSubdirs
    rw [h]
    dsimp only
    rw [if_pos rfl]
    dsimp only
    rw [List.filter_nil, List.map_nil, List.append_nil]
    congr 1
    exact (findLoop_congr fs { fs with
      listDir := fun p => if p = s then .ok [] else fs.listDir p } s rfl rfl _).symm

/-- Witness for C4 (amended) on a filesystem with no static root at all. -/
theorem C4_missing_root_witness :
    _find_image_relpath fsNoCsv "/s" "q" none = .ok none := by
  have h := (C4_missing_root fsNoCsv "/s" "q" none rfl).1
  rw [h]
  rfl

/-- Claim C5: every entry of a successfully loaded mapping has a
non-empty, whitespace-trimmed key equal to the definition's `id` field,
the canonical improvements list in canonical order, and a correct set
contained in the improvements. -/
theorem C5_entry_invariant : ∀ (fs : FS) (static_dir csv_path : String)
    (ov : Option String) (m : List (String × QuizDef)),
    load_quizzes fs static_dir csv_path ov = .ok m →
    ∀ k q, (k, q) ∈ m →
      k ≠ "" ∧ pyStrip k = k ∧ q.id = k ∧ q.improvements = UI_IMPROVEMENTS ∧
        ∀ x ∈ q.correct, x ∈ UI_IMPROVEMENTS := by
  intro fs s c ov m h k q hmem
  by_cases hfile : fs.isFile c = true
  · rw [load_quizzes_file fs s c ov hfile] at h
    cases hrows : fs.csvRows c with
    | nil =>
      rw [hrows] at h
      cases h
      simp at hmem
    | cons headerRow dataRows =>
      rw [hrows] at h
      dsimp only at h
      cases hres : resolveIdKey (headerIdx headerRow) with
      | none =>
        rw [hres] at h
        cases h
        simp at hmem
      | some id_key =>
        rw [hres] at h
        dsimp only at h
        have hinv := loadLoop_inv fs s ov (headerIdx headerRow)
          (dictGetNat (headerIdx headerRow) id_key)
          (fun p => p.1 ≠ "" ∧ pyStrip p.1 = p.1 ∧ p.2.id = p.1 ∧
            p.2.improvements = UI_IMPROVEMENTS ∧ ∀ x ∈ p.2.correct, x ∈ UI_IMPROVEMENTS)
          (fun row k' q' hpr => processRow_some_inv fs s ov _ _ row k' q' hpr)
          dataRows [] m h (by intro p hp; simp at hp)
        exact hinv (k, q) hmem
  · rw [load_quizzes_not_file fs s c ov (by rwa [Bool.not_eq_true] at hfile)] at h
    cases h
    simp at hmem

/-- Witness for C5 on the one-row CSV filesystem. -/
theorem C5_entry_invariant_witness :
    "q1" ≠ "" ∧ pyStrip "q1" = "q1" ∧
      (QuizDef.mk "q1" UI_IMPROVEMENTS ["ピクトグラムを挿入する"] none).id = "q1" ∧
      (QuizDef.mk "q1" UI_IMPROVEMENTS ["ピクトグラムを挿入する"] none).improvements
        = UI_IMPROVEMENTS ∧
      ∀ x ∈ (QuizDef.mk "q1" UI_IMPROVEMENTS ["ピクトグラムを挿入する"] none).correct,
        x ∈ UI_IMPROVEMENTS :=
  C5_entry_invariant fsGoodCsv "/s" "/c.csv" none
    [("q1", QuizDef.mk "q1" UI_IMPROVEMENTS ["ピクトグラムを挿入する"] none)]
    (by rfl) "q1" (QuizDef.mk "q1" UI_IMPROVEMENTS ["ピクトグラムを挿入する"] none)
    (List.mem_singleton.mpr rfl)

/-- Claim C6: the id column is resolved from the normalized header row
by trying, in order, an exact `ID` header, an exact `id` header, then
the first header whose lowercase form ends in `id`; when none succeeds,
`load_quizzes` returns the empty mapping without raising. -/
theorem C6_id_resolution : ∀ headerRow : List String,
    resolveIdKey (headerIdx headerRow)
      = specResolveIdKey (_normalize_headers headerRow) ∧
    ∀ (fs : FS) (static_dir csv_path : String) (ov : Option String)
      (dataRows : List (List String)),
      fs.csvRows csv_path = headerRow :: dataRows →
      specResolveIdKey (_normalize_headers headerRow) = none →
      load_quizzes fs static_dir csv_path ov = .ok [] := by
  intro hr
  have h1 : resolveIdKey (headerIdx hr) = specResolveIdKey (_normalize_headers hr) := by
    unfold headerIdx
    exact resolveIdKey_eq_spec (_normalize_headers hr)
  refine ⟨h1, ?_⟩
  intro fs s c ov dr hrows hnone
  by_cases hfile : fs.isFile c = true
  · rw [load_quizzes_file fs s c ov hfile, hrows]
    dsimp only
    rw [h1, hnone]
  · exact load_quizzes_not_file fs s c ov (by rwa [Bool.not_eq_true] at hfile)

/-- A filesystem whose CSV header has no id-like column at all. -/
def fsNoIdCol : FS :=
  { cwd := []
    isFile := fun p => p = "/c.csv"
    isDir := fun _ => false
    listDir := fun _ => .error .fileNotFound
    csvRows := fun p => if p = "/c.csv" then [["foo", "bar"], ["x", "y"]] else [] }

/-- Witness for C6: with headers `foo,bar` no strategy succeeds and the
load result is the empty mapping. -/
theorem C6_id_resolution_witness :
    load_quizzes fsNoIdCol "/s" "/c.csv" none = .ok [] :=
  (C6_id_resolution ["foo", "bar"]).2 fsNoIdCol "/s" "/c.csv" none [["x", "y"]]
    rfl (by rfl)

/-- Claim C7: under a successful load, the mapping's keys are unique,
and the entry stored for any id is exactly the contribution of the last
data row carrying that trimmed id (its correct set and image path
included) — later rows silently overwrite earlier ones and no
duplicate-detection error exists. -/
theorem C7_last_write_wins : ∀ (fs : FS) (static_dir csv_path : String)
    (ov : Option String) (headerRow : List String) (dataRows : List (List String))
    (id_key : String) (m : List (String × QuizDef)),
    fs.isFile csv_path = true →
    fs.csvRows csv_path = headerRow :: dataRows →
    resolveIdKey (headerIdx headerRow) = some id_key →
    load_quizzes fs static_dir csv_path ov = .ok m →
    (dictKeys m).Nodup ∧
    ∀ k, dictGet m k = dataRows.reverse.findSome?
        (rowContribution fs static_dir ov (headerIdx headerRow)
          (dictGetNat (headerIdx headerRow) id_key) k) := by
  intro fs s c ov hr dr key m hfile hrows hres h
  rw [load_quizzes_file fs s c ov hfile, hrows] at h
  dsimp only at h
  rw [hres] at h
  dsimp only at h
  constructor
  · exact loadLoop_nodup fs s ov _ _ dr [] m h (by simp [dictKeys])
  · intro k
    rw [loadLoop_lookup fs s ov _ _ dr [] m h k]
    cases dr.reverse.findSome?
        (rowContribution fs s ov (headerIdx hr) (dictGetNat (headerIdx hr) key) k) <;> rfl

/-- A CSV with two data rows sharing the id `q`: the first marks `ch1`,
the second does not. -/
def fsDupIds : FS :=
  { cwd := []
    isFile := fun p => p = "/c.csv"
    isDir := fun _ => false
    listDir := fun _ => .error .fileNotFound
    csvRows := fun p => if p = "/c.csv" then [["ID", "ch1"], ["q", "1"], ["q", "0"]] else [] }

/-- Witness for C7: with duplicate id `q`, the stored definition is the
one built from the last row (whose `ch1` is falsy, so the correct set is
empty). -/
theorem C7_last_write_wins_witness :
    dictGet [("q", QuizDef.mk "q" UI_IMPROVEMENTS [] none)] "q"
      = some (QuizDef.mk "q" UI_IMPROVEMENTS [] none) := by
  have h := C7_last_write_wins fsDupIds "/s" "/c.csv" none ["ID", "ch1"]
    [["q", "1"], ["q", "0"]] "ID" [("q", QuizDef.mk "q" UI_IMPROVEMENTS [] none)]
    rfl rfl (by rfl) (by rfl)
  rw [h.2 "q"]
  rfl

end SlideQuiz
